import Mathlib

/-!
Verification development for a multiplayer tic-tac-toe server.

The embedding follows the source: a pure game engine (`checkWinner` over a
9-cell board), a room-based server state machine driven by inbound events
(`create`, `join`, `move`, `reset`, `new`, disconnect, grace-timer firing),
and a small single-game HTTP variant (`apiMove`, `apiReset`, `apiNew`).
Randomness (symbol assignment, room codes, reshuffle outcome) and wall-clock
times are passed in as event parameters; scheduled timers are modelled as
explicit pending-timer records that fire as events.
-/

set_option maxHeartbeats 1000000

namespace TicTacToe

/-- Player symbol: the strings 'X' and 'O' in the source. -/
inductive Sym : Type where
  | X : Sym
  | O : Sym
  deriving DecidableEq

/-- The turn flip `currentPlayer === 'X' ? 'O' : 'X'`. -/
def Sym.flip : Sym → Sym
  | .X => .O
  | .O => .X

abbrev ConnId := Nat

/-- A board cell: `null`, `'X'` or `'O'`. -/
abbrev Cell := Option Sym

/-- `board`: the 9-element array; `null` cells are `none`. -/
abbrev Board := List Cell

/-- `board[i]` with JS out-of-range access reading as empty (`undefined` is falsy). -/
def cellAt (board : Board) (i : Nat) : Cell := board.getD i none

/-- The record `{ winner, line }` returned by `checkWinner`. -/
structure WinResult where
  winner : Sym
  line : List Nat
  deriving DecidableEq

/-- `WIN_PATTERNS`: 3 rows top-to-bottom, 3 columns left-to-right, 2 diagonals. -/
def WIN_PATTERNS : List (Nat × Nat × Nat) :=
  [(0, 1, 2), (3, 4, 5), (6, 7, 8),
   (0, 3, 6), (1, 4, 7), (2, 5, 8),
   (0, 4, 8), (2, 4, 6)]

/-- The loop body of `checkWinner`: scan the given patterns in order and
return the first `{ winner: board[a], line: [a,b,c] }` whose three cells are
non-empty and equal (`board[a] && board[a] === board[b] && board[a] === board[c]`). -/
def checkWinnerAux (board : Board) : List (Nat × Nat × Nat) → Option WinResult
  | [] => none
  | (a, b, c) :: rest =>
    match cellAt board a with
    | some s =>
      if cellAt board b = some s ∧ cellAt board c = some s then
        some ⟨s, [a, b, c]⟩
      else
        checkWinnerAux board rest
    | none => checkWinnerAux board rest

/-- `checkWinner(board)`: identical in `server.js` and in the HTTP variant. -/
def checkWinner (board : Board) : Option WinResult :=
  checkWinnerAux board WIN_PATTERNS

/-- The triple `p` is fully occupied by the symbol `s`. -/
def lineWonBy (board : Board) (p : Nat × Nat × Nat) (s : Sym) : Prop :=
  cellAt board p.1 = some s ∧ cellAt board p.2.1 = some s ∧ cellAt board p.2.2 = some s

/-- The triple `p` is fully occupied by a single symbol. -/
def lineWon (board : Board) (p : Nat × Nat × Nat) : Prop :=
  ∃ s, lineWonBy board p s

theorem not_lineWon_of_none {board : Board} {a b c : Nat} (h : cellAt board a = none) :
    ¬ lineWon board (a, b, c) := by
  rintro ⟨s, ha, -, -⟩
  rw [h] at ha
  exact Option.noConfusion ha

theorem not_lineWon_of_mismatch {board : Board} {a b c : Nat} {s : Sym}
    (ha : cellAt board a = some s)
    (h : ¬(cellAt board b = some s ∧ cellAt board c = some s)) :
    ¬ lineWon board (a, b, c) := by
  rintro ⟨s', ha', hb', hc'⟩
  have hs : s' = s := by
    rw [ha] at ha'
    exact (Option.some.inj ha').symm
  subst hs
  exact h ⟨hb', hc'⟩

theorem lineWon_of_cells {board : Board} {a b c : Nat} {s : Sym}
    (ha : cellAt board a = some s) (hb : cellAt board b = some s)
    (hc : cellAt board c = some s) : lineWon board (a, b, c) :=
  ⟨s, ha, hb, hc⟩

theorem checkWinnerAux_none_iff (board : Board) (ps : List (Nat × Nat × Nat)) :
    checkWinnerAux board ps = none ↔ ∀ p ∈ ps, ¬ lineWon board p := by
  induction ps with
  | nil => simp [checkWinnerAux]
  | cons hd tl ih =>
    obtain ⟨a, b, c⟩ := hd
    simp only [checkWinnerAux]
    split
    · rename_i s hcell
      by_cases hbc : cellAt board b = some s ∧ cellAt board c = some s
      · rw [if_pos hbc]
        simp only [List.mem_cons]
        constructor
        · intro h
          exact Option.noConfusion h
        · intro h
          exact absurd (lineWon_of_cells hcell hbc.1 hbc.2) (h _ (Or.inl rfl))
      · rw [if_neg hbc]
        simp only [ih, List.mem_cons]
        constructor
        · rintro h p (rfl | hp)
          · exact not_lineWon_of_mismatch hcell hbc
          · exact h p hp
        · intro h p hp
          exact h p (Or.inr hp)
    · rename_i hcell
      simp only [ih, List.mem_cons]
      constructor
      · rintro h p (rfl | hp)
        · exact not_lineWon_of_none hcell
        · exact h p hp
      · intro h p hp
        exact h p (Or.inr hp)

theorem checkWinnerAux_some (board : Board) (ps : List (Nat × Nat × Nat)) (r : WinResult)
    (h : checkWinnerAux board ps = some r) :
    ∃ p ps₁ ps₂, ps = ps₁ ++ p :: ps₂ ∧
      r.line = [p.1, p.2.1, p.2.2] ∧ lineWonBy board p r.winner ∧
      ∀ q ∈ ps₁, ¬ lineWon board q := by
  induction ps with
  | nil => exact absurd h (by simp [checkWinnerAux])
  | cons hd tl ih =>
    obtain ⟨a, b, c⟩ := hd
    simp only [checkWinnerAux] at h
    revert h
    split
    · rename_i s hcell
      intro h
      by_cases hbc : cellAt board b = some s ∧ cellAt board c = some s
      · rw [if_pos hbc] at h
        have hr : r = ⟨s, [a, b, c]⟩ := (Option.some.inj h).symm
        subst hr
        exact ⟨(a, b, c), [], tl, rfl, rfl, ⟨hcell, hbc.1, hbc.2⟩, by simp⟩
      · rw [if_neg hbc] at h
        obtain ⟨p, ps₁, ps₂, heq, hline, hwon, hfirst⟩ := ih h
        refine ⟨p, (a, b, c) :: ps₁, ps₂, by rw [heq]; rfl, hline, hwon, ?_⟩
        intro q hq
        rcases List.mem_cons.mp hq with rfl | hq'
        · exact not_lineWon_of_mismatch hcell hbc
        · exact hfirst q hq'
    · rename_i hcell
      intro h
      obtain ⟨p, ps₁, ps₂, heq, hline, hwon, hfirst⟩ := ih h
      refine ⟨p, (a, b, c) :: ps₁, ps₂, by rw [heq]; rfl, hline, hwon, ?_⟩
      intro q hq
      rcases List.mem_cons.mp hq with rfl | hq'
      · exact not_lineWon_of_none hcell
      · exact hfirst q hq'

/-- C1: `checkWinner` evaluates the 8 fixed winning triples (3 rows
top-to-bottom, then 3 columns left-to-right, then the 2 diagonals) in that
fixed priority order, returning the symbol and triple of the first triple
whose three cells are all non-empty and equal; it returns `none` exactly when
no row, column or diagonal is fully occupied by a single symbol. -/
theorem checkWinner_first_winning_triple (board : Board) :
    WIN_PATTERNS = [(0, 1, 2), (3, 4, 5), (6, 7, 8),
      (0, 3, 6), (1, 4, 7), (2, 5, 8), (0, 4, 8), (2, 4, 6)] ∧
    (checkWinner board = none ↔ ∀ p ∈ WIN_PATTERNS, ¬ lineWon board p) ∧
    (∀ r : WinResult, checkWinner board = some r →
      ∃ p ps₁ ps₂, WIN_PATTERNS = ps₁ ++ p :: ps₂ ∧
        r.line = [p.1, p.2.1, p.2.2] ∧ lineWonBy board p r.winner ∧
        ∀ q ∈ ps₁, ¬ lineWon board q) :=
  ⟨rfl, checkWinnerAux_none_iff board WIN_PATTERNS,
    fun r h => checkWinnerAux_some board WIN_PATTERNS r h⟩

/-- Witness for C1 at a concrete board with a won top row. -/
theorem checkWinner_first_winning_triple_witness :
    ∃ p ps₁ ps₂, WIN_PATTERNS = ps₁ ++ p :: ps₂ ∧
      (WinResult.mk Sym.X [0, 1, 2]).line = [p.1, p.2.1, p.2.2] ∧
      lineWonBy [some Sym.X, some Sym.X, some Sym.X,
        none, none, none, none, none, none] p (WinResult.mk Sym.X [0, 1, 2]).winner ∧
      ∀ q ∈ ps₁, ¬ lineWon [some Sym.X, some Sym.X, some Sym.X,
        none, none, none, none, none, none] q :=
  (checkWinner_first_winning_triple _).2.2 ⟨Sym.X, [0, 1, 2]⟩ rfl

/-- `scores: { X, O, draws }`. -/
structure Scores where
  X : Nat
  O : Nat
  draws : Nat
  deriving DecidableEq

/-- `room.scores[winner]++`. -/
def Scores.inc (sc : Scores) : Sym → Scores
  | .X => { sc with X := sc.X + 1 }
  | .O => { sc with O := sc.O + 1 }

/-- `players: { X: ws|null, O: ws|null }`, holding connection references. -/
structure Players where
  X : Option ConnId
  O : Option ConnId
  deriving DecidableEq

def Players.get (p : Players) : Sym → Option ConnId
  | .X => p.X
  | .O => p.O

def Players.set (p : Players) : Sym → Option ConnId → Players
  | .X, v => { p with X := v }
  | .O, v => { p with O := v }

/-- `disconnectTimers: { X: timer|null, O: timer|null }`, holding timer ids. -/
structure Timers where
  X : Option Nat
  O : Option Nat
  deriving DecidableEq

def Timers.get (t : Timers) : Sym → Option Nat
  | .X => t.X
  | .O => t.O

def Timers.set (t : Timers) : Sym → Option Nat → Timers
  | .X, v => { t with X := v }
  | .O, v => { t with O := v }

/-- One entry of the `rooms` store. -/
structure Room where
  code : String
  board : Board
  boardProps : List (ℚ × Sym)
  currentPlayer : Sym
  winner : Option Sym
  winningLine : Option (List Nat)
  isDraw : Bool
  moveCount : Nat
  scores : Scores
  players : Players
  disconnectTimers : Timers
  lastActivity : Nat
  deriving DecidableEq

/-- The per-connection fields `ws.roomCode` and `ws.symbol` (both start `null`). -/
structure Conn where
  roomCode : Option String
  symbol : Option Sym
  deriving DecidableEq

/-- `ROOM_TTL`: 10 min inactivity cleanup, in milliseconds. -/
def ROOM_TTL : Nat := 10 * 60 * 1000

/-- `DISCONNECT_GRACE`: 60 s to rejoin, in milliseconds. -/
def DISCONNECT_GRACE : Nat := 60 * 1000

/-- A scheduled `setTimeout` from the close handler: the callback closes over
the disconnecting socket's room code and symbol, and was scheduled with the
given delay. -/
structure PendingTimer where
  id : Nat
  code : String
  sym : Sym
  delay : Nat
  deriving DecidableEq

/-- The whole in-memory server state: the `rooms` store, every socket's tag
fields, which sockets are open (`readyState === 1`), and the pending
`setTimeout` callbacks not yet fired or cancelled. -/
structure ServerState where
  rooms : String → Option Room
  conns : ConnId → Conn
  connOpen : ConnId → Bool
  timers : List PendingTimer
  nextTimerId : Nat

/-- The sanitized per-viewpoint payload built by `roomState(room, symbol)`. -/
structure StateView where
  board : Board
  currentPlayer : Sym
  winner : Option Sym
  winningLine : Option (List Nat)
  isDraw : Bool
  scores : Scores
  mySymbol : Sym
  opponentConnected : Bool
  playerCount : Nat
  deriving DecidableEq

/-- Outbound message types. -/
inductive OutMsg : Type where
  | created (code : String) (symbol : Sym)
  | joined (code : String) (symbol : Sym)
  | state (payload : StateView)
  | error (message : String)
  | opponentLeft (gracePeriod : Nat)
  | roomClosed (reason : String)
  | symbolUpdate (symbol : Sym)
  deriving DecidableEq

/-- `roomState(room, symbol)`. -/
def roomState (room : Room) (symbol : Sym) : StateView :=
  { board := room.board
    currentPlayer := room.currentPlayer
    winner := room.winner
    winningLine := room.winningLine
    isDraw := room.isDraw
    scores := room.scores
    mySymbol := symbol
    opponentConnected := (room.players.get symbol.flip).isSome
    playerCount := (if room.players.X.isSome then 1 else 0) +
      (if room.players.O.isSome then 1 else 0) }

/-- `send(ws, data)`: a no-op unless the socket is open. -/
def sendTo (isOpen : ConnId → Bool) (c : ConnId) (m : OutMsg) : List (ConnId × OutMsg) :=
  if isOpen c then [(c, m)] else []

/-- `broadcastRoom(room)`: a `state` message to each open slot-holder, X first. -/
def broadcastRoom (isOpen : ConnId → Bool) (room : Room) : List (ConnId × OutMsg) :=
  [Sym.X, Sym.O].filterMap fun sym =>
    match room.players.get sym with
    | some c => if isOpen c then some (c, OutMsg.state (roomState room sym)) else none
    | none => none

/-- The `symbolUpdate` notifications after a reshuffle, X slot first. -/
def symbolUpdates (isOpen : ConnId → Bool) (room : Room) : List (ConnId × OutMsg) :=
  [Sym.X, Sym.O].filterMap fun sym =>
    match room.players.get sym with
    | some c => if isOpen c then some (c, OutMsg.symbolUpdate sym) else none
    | none => none

/-- `(msg.code || '').toString().toUpperCase().trim()`. -/
def normalizeCode (s : String) : String := s.toUpper.trim

/-- The fresh room built by `createRoom()` (its random code is a parameter). -/
def freshRoom (code : String) (now : Nat) : Room :=
  { code := code
    board := List.replicate 9 none
    boardProps := []
    currentPlayer := .X
    winner := none
    winningLine := none
    isDraw := false
    moveCount := 0
    scores := ⟨0, 0, 0⟩
    players := ⟨none, none⟩
    disconnectTimers := ⟨none, none⟩
    lastActivity := now }

/-- `['X','O'].find(s => room.players[s] === null)`. -/
def firstAvailable (p : Players) : Option Sym :=
  if p.X = none then some Sym.X else if p.O = none then some Sym.O else none

/-- Update one key of the rooms store. -/
def setRoom (rooms : String → Option Room) (code : String) (r : Option Room) :
    String → Option Room :=
  fun k => if k = code then r else rooms k

/-- Update one connection's tag fields. -/
def setConn (conns : ConnId → Conn) (c : ConnId) (v : Conn) : ConnId → Conn :=
  fun k => if k = c then v else conns k

/-- `ws.symbol = sym` for one socket (used by `reshufflePlayers`). -/
def setSymbol (conns : ConnId → Conn) (c : ConnId) (sym : Sym) : ConnId → Conn :=
  fun k => if k = c then { conns k with symbol := some sym } else conns k

/-- The JS read `room.board[q]` (evaluated by the guard only for 0 ≤ q ≤ 8):
an integer index reads the array slot; a non-integer index reads the array
object's extra property, which is absent (`undefined`, falsy like `null`)
unless an earlier non-integer move wrote it. -/
def boardRead (room : Room) (q : ℚ) : Option Sym :=
  if q.den = 1 then cellAt room.board q.num.toNat
  else (room.boardProps.find? fun p => p.1 = q).map fun p => p.2

/-- The JS write `room.board[q] = sym`: an integer index sets the array slot;
a non-integer index sets an extra property on the array object, which no
array slot, `checkWinner` scan, or serialized broadcast ever sees. -/
def boardWrite (room : Room) (q : ℚ) (sym : Sym) : Room :=
  if q.den = 1 then { room with board := room.board.set q.num.toNat (some sym) }
  else { room with boardProps := (q, sym) :: room.boardProps.filter fun p => p.1 ≠ q }

/-- The mutation block of an accepted move: `room.board[index] = ws.symbol`,
bump `moveCount`, refresh `lastActivity`, then run the win/draw check. -/
def placeMove (room : Room) (q : ℚ) (now : Nat) : Room :=
  match checkWinner (boardWrite room q room.currentPlayer).board with
  | some r =>
    { room with
      board := (boardWrite room q room.currentPlayer).board
      boardProps := (boardWrite room q room.currentPlayer).boardProps
      moveCount := room.moveCount + 1
      lastActivity := now
      winner := some r.winner
      winningLine := some r.line
      scores := room.scores.inc r.winner }
  | none =>
    if room.moveCount + 1 = 9 then
      { room with
        board := (boardWrite room q room.currentPlayer).board
        boardProps := (boardWrite room q room.currentPlayer).boardProps
        moveCount := room.moveCount + 1
        lastActivity := now
        isDraw := true
        scores := { room.scores with draws := room.scores.draws + 1 } }
    else
      { room with
        board := (boardWrite room q room.currentPlayer).board
        boardProps := (boardWrite room q room.currentPlayer).boardProps
        moveCount := room.moveCount + 1
        lastActivity := now
        currentPlayer := room.currentPlayer.flip }

/-- The `create` handler: `sym` is the random 50/50 symbol, `code` the fresh
random room code. -/
def handleCreate (s : ServerState) (c : ConnId) (sym : Sym) (code : String) (now : Nat) :
    ServerState × List (ConnId × OutMsg) :=
  let room := { freshRoom code now with players := Players.set ⟨none, none⟩ sym (some c) }
  let s' := { s with rooms := setRoom s.rooms code (some room),
                     conns := setConn s.conns c ⟨some code, some sym⟩ }
  (s', sendTo s.connOpen c (.created code sym) ++
       sendTo s.connOpen c (.state (roomState room sym)))

/-- The `join` handler. -/
def handleJoin (s : ServerState) (c : ConnId) (rawCode : String) (now : Nat) :
    ServerState × List (ConnId × OutMsg) :=
  let code := normalizeCode rawCode
  match s.rooms code with
  | none => (s, sendTo s.connOpen c (.error "Room not found"))
  | some room =>
    match firstAvailable room.players with
    | none => (s, sendTo s.connOpen c (.error "Room is full"))
    | some available =>
      let timers' := match room.disconnectTimers.get available with
        | some tid => s.timers.filter fun t => t.id ≠ tid
        | none => s.timers
      let room' := { room with
        disconnectTimers := room.disconnectTimers.set available none
        players := room.players.set available (some c)
        lastActivity := now }
      let s' := { s with rooms := setRoom s.rooms code (some room'),
                         conns := setConn s.conns c ⟨some code, some available⟩,
                         timers := timers' }
      (s', sendTo s.connOpen c (.joined code available) ++ broadcastRoom s.connOpen room')

/-- The `move` handler; `index` is `none` when `typeof index !== 'number'`.
A JSON number is otherwise an arbitrary finite decimal, modelled as a
rational: the validity check never tests integrality, so an in-range
non-integer index passes it (its `board[index]` read is `undefined`, falsy
like an empty cell). -/
def handleMove (s : ServerState) (c : ConnId) (index : Option ℚ) (now : Nat) :
    ServerState × List (ConnId × OutMsg) :=
  match (s.conns c).roomCode with
  | none => (s, [])
  | some rc =>
    match s.rooms rc with
    | none => (s, [])
    | some room =>
      if (s.conns c).symbol ≠ some room.currentPlayer then
        (s, sendTo s.connOpen c (.error "Not your turn"))
      else
        match index with
        | none => (s, sendTo s.connOpen c (.error "Invalid move"))
        | some q =>
          if q < 0 ∨ 8 < q ∨ boardRead room q ≠ none ∨
              room.winner ≠ none ∨ room.isDraw = true then
            (s, sendTo s.connOpen c (.error "Invalid move"))
          else
            let room' := placeMove room q now
            let s' := { s with rooms := setRoom s.rooms rc (some room') }
            (s', broadcastRoom s.connOpen room')

/-- `if (players[k]) players[k].symbol = sym` — write the symbol tag of the
socket in a slot, if the slot is occupied. -/
def tagSymbol (conns : ConnId → Conn) (p : Option ConnId) (sym : Sym) : ConnId → Conn :=
  match p with
  | some d => setSymbol conns d sym
  | none => conns

/-- `reshufflePlayers(room)`: put both slot references in an array, reverse it
on a 50/50 coin (`swap`), reassign the slots, write each present socket's
`ws.symbol` (slot 0 gets X, then slot 1 gets O), and set `currentPlayer = 'X'`. -/
def reshufflePlayers (room : Room) (conns : ConnId → Conn) (swap : Bool) :
    Room × (ConnId → Conn) :=
  let p0 := if swap then room.players.O else room.players.X
  let p1 := if swap then room.players.X else room.players.O
  ({ room with players := ⟨p0, p1⟩, currentPlayer := .X },
    tagSymbol (tagSymbol conns p0 .X) p1 .O)

/-- The fields written by `Object.assign` in the `reset`/`new` handlers. -/
def clearRound (room : Room) (scores : Scores) : Room :=
  { room with
    board := List.replicate 9 none
    boardProps := []
    currentPlayer := .X
    winner := none
    winningLine := none
    isDraw := false
    moveCount := 0
    scores := scores }

/-- The `reset` handler (keeps scores). -/
def handleReset (s : ServerState) (c : ConnId) (swap : Bool) (now : Nat) :
    ServerState × List (ConnId × OutMsg) :=
  match (s.conns c).roomCode with
  | none => (s, [])
  | some rc =>
    match s.rooms rc with
    | none => (s, [])
    | some room =>
      let (room₁, conns') := reshufflePlayers (clearRound room room.scores) s.conns swap
      let room₂ := { room₁ with lastActivity := now }
      let s' := { s with rooms := setRoom s.rooms rc (some room₂), conns := conns' }
      (s', symbolUpdates s.connOpen room₂ ++ broadcastRoom s.connOpen room₂)

/-- The `new` handler (also zeroes the scores). -/
def handleNewGame (s : ServerState) (c : ConnId) (swap : Bool) (now : Nat) :
    ServerState × List (ConnId × OutMsg) :=
  match (s.conns c).roomCode with
  | none => (s, [])
  | some rc =>
    match s.rooms rc with
    | none => (s, [])
    | some room =>
      let (room₁, conns') := reshufflePlayers (clearRound room ⟨0, 0, 0⟩) s.conns swap
      let room₂ := { room₁ with lastActivity := now }
      let s' := { s with rooms := setRoom s.rooms rc (some room₂), conns := conns' }
      (s', symbolUpdates s.connOpen room₂ ++ broadcastRoom s.connOpen room₂)

/-- The `close` handler: mark the socket closed; if it was bound to a live
room, clear its slot, notify the opponent, and schedule the grace timer. -/
def handleClose (s : ServerState) (c : ConnId) : ServerState × List (ConnId × OutMsg) :=
  let isOpen' := fun k => if k = c then false else s.connOpen k
  let s₀ := { s with connOpen := isOpen' }
  match (s.conns c).roomCode, (s.conns c).symbol with
  | some rc, some sym =>
    (match s.rooms rc with
     | none => (s₀, [])
     | some room =>
       let room' := { room with players := room.players.set sym none }
       let sends := match room'.players.get sym.flip with
         | some d => sendTo isOpen' d (.opponentLeft 60)
         | none => []
       let tid := s.nextTimerId
       let room'' := { room' with disconnectTimers := room'.disconnectTimers.set sym (some tid) }
       ({ s₀ with rooms := setRoom s.rooms rc (some room''),
                  timers := s.timers ++ [⟨tid, rc, sym, DISCONNECT_GRACE⟩],
                  nextTimerId := tid + 1 }, sends))
  | _, _ => (s₀, [])

/-- A scheduled grace-timer callback fires: if the slot is still empty the
room is deleted and the opponent (if present) is told; otherwise nothing. -/
def handleTimerFire (s : ServerState) (tid : Nat) : ServerState × List (ConnId × OutMsg) :=
  match s.timers.find? fun t => t.id = tid with
  | none => (s, [])
  | some t =>
    let s₁ := { s with timers := s.timers.filter fun u => u.id ≠ tid }
    match s₁.rooms t.code with
    | none => (s₁, [])
    | some r =>
      if r.players.get t.sym = none then
        let sends := match r.players.get t.sym.flip with
          | some d => sendTo s₁.connOpen d (.roomClosed "Opponent did not reconnect")
          | none => []
        ({ s₁ with rooms := setRoom s₁.rooms t.code none }, sends)
      else
        (s₁, [])

/-- Inbound events. Random choices (assigned symbol, generated room code,
reshuffle coin) and `Date.now()` readings are event parameters; `timerFire`
is a scheduled grace-timer callback running. -/
inductive Event : Type where
  | create (c : ConnId) (sym : Sym) (code : String) (now : Nat)
  | join (c : ConnId) (rawCode : String) (now : Nat)
  | move (c : ConnId) (index : Option ℚ) (now : Nat)
  | reset (c : ConnId) (swap : Bool) (now : Nat)
  | newGame (c : ConnId) (swap : Bool) (now : Nat)
  | disconnect (c : ConnId)
  | timerFire (tid : Nat)

/-- One dispatch of the message/close/timer handlers. -/
def step (s : ServerState) : Event → ServerState × List (ConnId × OutMsg)
  | .create c sym code now => handleCreate s c sym code now
  | .join c rawCode now => handleJoin s c rawCode now
  | .move c index now => handleMove s c index now
  | .reset c swap now => handleReset s c swap now
  | .newGame c swap now => handleNewGame s c swap now
  | .disconnect c => handleClose s c
  | .timerFire tid => handleTimerFire s tid

/-- Which events the runtime can actually deliver: messages and closes come
from open sockets, `makeCode` retries until the generated code is unused, and
only scheduled, uncancelled timers fire. -/
def Valid (s : ServerState) : Event → Prop
  | .create c _ code _ => s.connOpen c = true ∧ s.rooms code = none
  | .join c _ _ => s.connOpen c = true
  | .move c _ _ => s.connOpen c = true
  | .reset c _ _ => s.connOpen c = true
  | .newGame c _ _ => s.connOpen c = true
  | .disconnect c => s.connOpen c = true
  | .timerFire tid => ∃ t ∈ s.timers, t.id = tid

/-- Process start: no rooms, no timers, every socket fresh and unbound. -/
def initState : ServerState :=
  { rooms := fun _ => none
    conns := fun _ => ⟨none, none⟩
    connOpen := fun _ => true
    timers := []
    nextTimerId := 0 }

/-- States reachable from process start by valid events. -/
inductive Reachable : ServerState → Prop where
  | init : Reachable initState
  | step {s : ServerState} {e : Event} : Reachable s → Valid s e → Reachable (step s e).1

/-- The single-game HTTP variant's in-memory `game` object. -/
structure Game where
  board : Board
  currentPlayer : Sym
  winner : Option Sym
  winningLine : Option (List Nat)
  isDraw : Bool
  moveCount : Nat
  scores : Scores
  deriving DecidableEq

/-- `createNewGame()`. -/
def createNewGame : Game :=
  { board := List.replicate 9 none
    currentPlayer := .X
    winner := none
    winningLine := none
    isDraw := false
    moveCount := 0
    scores := ⟨0, 0, 0⟩ }

/-- The mutation block of an accepted `/api/move`. -/
def soloPlace (g : Game) (i : Nat) : Game :=
  match checkWinner (g.board.set i (some g.currentPlayer)) with
  | some r =>
    { g with
      board := g.board.set i (some g.currentPlayer)
      moveCount := g.moveCount + 1
      winner := some r.winner
      winningLine := some r.line
      scores := g.scores.inc r.winner }
  | none =>
    if g.moveCount + 1 = 9 then
      { g with
        board := g.board.set i (some g.currentPlayer)
        moveCount := g.moveCount + 1
        isDraw := true
        scores := { g.scores with draws := g.scores.draws + 1 } }
    else
      { g with
        board := g.board.set i (some g.currentPlayer)
        moveCount := g.moveCount + 1
        currentPlayer := g.currentPlayer.flip }

/-- The `POST /api/move` handler: new game state plus optional 400 error.
Its occupied-cell check is strict (`game.board[index] !== null`), so a
non-integer in-range index — whose read is `undefined`, not `null` — is
rejected, unlike in the room server. -/
def apiMove (g : Game) (index : Option ℚ) : Game × Option String :=
  match index with
  | none => (g, some "Invalid index")
  | some q =>
    if q < 0 ∨ 8 < q then (g, some "Invalid index")
    else if ¬(q.den = 1 ∧ cellAt g.board q.num.toNat = none) then
      (g, some "Cell already taken")
    else if g.winner ≠ none ∨ g.isDraw = true then (g, some "Game is over")
    else (soloPlace g q.num.toNat, none)

/-- The `POST /api/reset` handler (keeps scores). -/
def apiReset (g : Game) : Game := { createNewGame with scores := g.scores }

/-- The `POST /api/new` handler. -/
def apiNew (_g : Game) : Game := createNewGame

theorem players_get_set_same (p : Players) (sym : Sym) (v : Option ConnId) :
    (p.set sym v).get sym = v := by
  cases sym <;> rfl

theorem players_get_set_other (p : Players) (sym sym' : Sym) (v : Option ConnId)
    (h : sym' ≠ sym) : (p.set sym v).get sym' = p.get sym' := by
  cases sym <;> cases sym' <;> first | rfl | exact absurd rfl h

theorem timers_get_set_same (t : Timers) (sym : Sym) (v : Option Nat) :
    (t.set sym v).get sym = v := by
  cases sym <;> rfl

theorem timers_get_set_other (t : Timers) (sym sym' : Sym) (v : Option Nat)
    (h : sym' ≠ sym) : (t.set sym v).get sym' = t.get sym' := by
  cases sym <;> cases sym' <;> first | rfl | exact absurd rfl h

theorem setRoom_same (rooms : String → Option Room) (code : String) (r : Option Room) :
    setRoom rooms code r code = r := by
  simp [setRoom]

theorem setRoom_other (rooms : String → Option Room) (code k : String) (r : Option Room)
    (h : k ≠ code) : setRoom rooms code r k = rooms k := by
  simp [setRoom, h]

theorem setConn_same (conns : ConnId → Conn) (c : ConnId) (v : Conn) :
    setConn conns c v c = v := by
  simp [setConn]

theorem setConn_other (conns : ConnId → Conn) (c k : ConnId) (v : Conn)
    (h : k ≠ c) : setConn conns c v k = conns k := by
  simp [setConn, h]

theorem Sym.flip_ne (sym : Sym) : sym.flip ≠ sym := by
  cases sym <;> simp [Sym.flip]

/-- A concrete two-player room used by witnesses: conn 0 holds X, conn 1 holds O. -/
def roomW : Room :=
  { code := "AAAA"
    board := List.replicate 9 none
    boardProps := []
    currentPlayer := .X
    winner := none
    winningLine := none
    isDraw := false
    moveCount := 0
    scores := ⟨0, 0, 0⟩
    players := ⟨some 0, some 1⟩
    disconnectTimers := ⟨none, none⟩
    lastActivity := 0 }

/-- A concrete server state used by witnesses. -/
def stateW : ServerState :=
  { rooms := fun k => if k = "AAAA" then some roomW else none
    conns := fun c =>
      if c = 0 then ⟨some "AAAA", some .X⟩
      else if c = 1 then ⟨some "AAAA", some .O⟩
      else ⟨none, none⟩
    connOpen := fun _ => true
    timers := []
    nextTimerId := 0 }

/-- C2: with the sender bound to a live room, a move whose index is not a
number, out of range 0-8, targets an occupied cell, or arrives with winner or
isDraw already set draws an `Invalid move` error to the sender only, leaving
the whole server state (board, moveCount, currentPlayer, winner, isDraw,
scores) untouched and broadcasting nothing; a sender whose symbol is not
`currentPlayer` instead gets `Not your turn`, likewise with no mutation. -/
theorem move_rejection_spec (s : ServerState) (c : ConnId) (rc : String) (room : Room)
    (index : Option ℚ) (now : Nat)
    (hopen : s.connOpen c = true)
    (hrc : (s.conns c).roomCode = some rc)
    (hroom : s.rooms rc = some room) :
    ((s.conns c).symbol = some room.currentPlayer →
      (index = none ∨ (∃ q, index = some q ∧ (q < 0 ∨ 8 < q)) ∨
        (∃ q, index = some q ∧ boardRead room q ≠ none) ∨
        room.winner ≠ none ∨ room.isDraw = true) →
      step s (.move c index now) = (s, [(c, OutMsg.error "Invalid move")])) ∧
    ((s.conns c).symbol ≠ some room.currentPlayer →
      step s (.move c index now) = (s, [(c, OutMsg.error "Not your turn")])) := by
  constructor
  · intro hsym hbad
    rcases hbad with rfl | ⟨q, rfl, h⟩ | ⟨q, rfl, h⟩ | h | h
    · simp [step, handleMove, hrc, hroom, hsym, sendTo, hopen]
    · have hcond : q < 0 ∨ 8 < q ∨ boardRead room q ≠ none ∨
          room.winner ≠ none ∨ room.isDraw = true := by tauto
      simp [step, handleMove, hrc, hroom, hsym, hcond, sendTo, hopen]
    · have hcond : q < 0 ∨ 8 < q ∨ boardRead room q ≠ none ∨
          room.winner ≠ none ∨ room.isDraw = true := by tauto
      simp [step, handleMove, hrc, hroom, hsym, hcond, sendTo, hopen]
    · cases index with
      | none => simp [step, handleMove, hrc, hroom, hsym, sendTo, hopen]
      | some q =>
        have hcond : q < 0 ∨ 8 < q ∨ boardRead room q ≠ none ∨
            room.winner ≠ none ∨ room.isDraw = true := by tauto
        simp [step, handleMove, hrc, hroom, hsym, hcond, sendTo, hopen]
    · cases index with
      | none => simp [step, handleMove, hrc, hroom, hsym, sendTo, hopen]
      | some q =>
        have hcond : q < 0 ∨ 8 < q ∨ boardRead room q ≠ none ∨
            room.winner ≠ none ∨ room.isDraw = true := by tauto
        simp [step, handleMove, hrc, hroom, hsym, hcond, sendTo, hopen]
  · intro hsym
    simp only [step, handleMove, hrc, hroom]
    rw [if_pos hsym]
    simp [sendTo, hopen]

/-- Witness for C2: conn 1 (O) moving out of turn, and conn 0 (X) moving with
an out-of-range index. -/
theorem move_rejection_spec_witness :
    step stateW (.move 1 (some 4) 7) = (stateW, [(1, OutMsg.error "Not your turn")]) ∧
    step stateW (.move 0 (some 9) 7) = (stateW, [(0, OutMsg.error "Invalid move")]) :=
  ⟨(move_rejection_spec stateW 1 "AAAA" roomW (some 4) 7 rfl rfl rfl).2 (by decide),
   (move_rejection_spec stateW 0 "AAAA" roomW (some 9) 7 rfl rfl rfl).1 rfl
     (Or.inr (Or.inl ⟨9, rfl, by decide⟩))⟩

/-- Case analysis on the win/draw/toggle branches of an accepted move. -/
theorem placeMove_cases (room : Room) (q : ℚ) (now : Nat) :
    (∃ r, checkWinner (boardWrite room q room.currentPlayer).board = some r ∧
      placeMove room q now = { room with
        board := (boardWrite room q room.currentPlayer).board
        boardProps := (boardWrite room q room.currentPlayer).boardProps
        moveCount := room.moveCount + 1
        lastActivity := now
        winner := some r.winner
        winningLine := some r.line
        scores := room.scores.inc r.winner }) ∨
    (checkWinner (boardWrite room q room.currentPlayer).board = none ∧
      room.moveCount + 1 = 9 ∧
      placeMove room q now = { room with
        board := (boardWrite room q room.currentPlayer).board
        boardProps := (boardWrite room q room.currentPlayer).boardProps
        moveCount := room.moveCount + 1
        lastActivity := now
        isDraw := true
        scores := { room.scores with draws := room.scores.draws + 1 } }) ∨
    (checkWinner (boardWrite room q room.currentPlayer).board = none ∧
      room.moveCount + 1 ≠ 9 ∧
      placeMove room q now = { room with
        board := (boardWrite room q room.currentPlayer).board
        boardProps := (boardWrite room q room.currentPlayer).boardProps
        moveCount := room.moveCount + 1
        lastActivity := now
        currentPlayer := room.currentPlayer.flip }) := by
  cases hcw : checkWinner (boardWrite room q room.currentPlayer).board with
  | some r => exact Or.inl ⟨r, rfl, by simp [placeMove, hcw]⟩
  | none =>
    by_cases h9 : room.moveCount + 1 = 9
    · exact Or.inr (Or.inl ⟨rfl, h9, by simp [placeMove, hcw, h9]⟩)
    · exact Or.inr (Or.inr ⟨rfl, h9, by simp [placeMove, hcw, h9]⟩)

/-- Same case analysis for the HTTP variant. -/
theorem soloPlace_cases (g : Game) (i : Nat) :
    (∃ r, checkWinner (g.board.set i (some g.currentPlayer)) = some r ∧
      soloPlace g i = { g with
        board := g.board.set i (some g.currentPlayer)
        moveCount := g.moveCount + 1
        winner := some r.winner
        winningLine := some r.line
        scores := g.scores.inc r.winner }) ∨
    (checkWinner (g.board.set i (some g.currentPlayer)) = none ∧
      g.moveCount + 1 = 9 ∧
      soloPlace g i = { g with
        board := g.board.set i (some g.currentPlayer)
        moveCount := g.moveCount + 1
        isDraw := true
        scores := { g.scores with draws := g.scores.draws + 1 } }) ∨
    (checkWinner (g.board.set i (some g.currentPlayer)) = none ∧
      g.moveCount + 1 ≠ 9 ∧
      soloPlace g i = { g with
        board := g.board.set i (some g.currentPlayer)
        moveCount := g.moveCount + 1
        currentPlayer := g.currentPlayer.flip }) := by
  cases hcw : checkWinner (g.board.set i (some g.currentPlayer)) with
  | some r => exact Or.inl ⟨r, rfl, by simp [soloPlace, hcw]⟩
  | none =>
    by_cases h9 : g.moveCount + 1 = 9
    · exact Or.inr (Or.inl ⟨rfl, h9, by simp [soloPlace, hcw, h9]⟩)
    · exact Or.inr (Or.inr ⟨rfl, h9, by simp [soloPlace, hcw, h9]⟩)

/-- An accepted server move updates the room to `placeMove`. -/
theorem handleMove_accepts (s : ServerState) (c : ConnId) (rc : String) (room : Room)
    (q : ℚ) (now : Nat)
    (hrc : (s.conns c).roomCode = some rc)
    (hroom : s.rooms rc = some room)
    (hsym : (s.conns c).symbol = some room.currentPlayer)
    (hq : ¬(q < 0 ∨ 8 < q)) (hempty : boardRead room q = none)
    (hw : room.winner = none) (hd : room.isDraw = false) :
    step s (.move c (some q) now) =
      ({ s with rooms := setRoom s.rooms rc (some (placeMove room q now)) },
        broadcastRoom s.connOpen (placeMove room q now)) := by
  have hcond : ¬(q < 0 ∨ 8 < q ∨ boardRead room q ≠ none ∨
      room.winner ≠ none ∨ room.isDraw = true) := by
    push_neg
    push_neg at hq
    exact ⟨hq.1, hq.2, hempty, hw, by simp [hd]⟩
  simp [step, handleMove, hrc, hroom, hsym, hcond]

/-- An accepted HTTP-variant move returns `soloPlace` with no error. -/
theorem apiMove_accepts (g : Game) (q : ℚ)
    (hq : ¬(q < 0 ∨ 8 < q)) (hint : q.den = 1)
    (hempty : cellAt g.board q.num.toNat = none)
    (hw : g.winner = none) (hd : g.isDraw = false) :
    apiMove g (some q) = (soloPlace g q.num.toNat, none) := by
  simp [apiMove, hq, hint, hempty, hw, hd]

theorem placeMove_draw_win (room : Room) (q : ℚ) (now : Nat)
    (_hw : room.winner = none) (hd : room.isDraw = false) :
    ((placeMove room q now).isDraw = true ↔
      ((placeMove room q now).moveCount = 9 ∧
        checkWinner (placeMove room q now).board = none)) ∧
    ((placeMove room q now).isDraw = true →
      (placeMove room q now).scores =
        { room.scores with draws := room.scores.draws + 1 }) ∧
    (∀ r, checkWinner (boardWrite room q room.currentPlayer).board = some r →
      (placeMove room q now).winner = some r.winner ∧
      (placeMove room q now).scores = room.scores.inc r.winner) := by
  rcases placeMove_cases room q now with ⟨r, hcw, heq⟩ | ⟨hcw, h9, heq⟩ | ⟨hcw, h9, heq⟩
  · refine ⟨?_, ?_, ?_⟩
    · rw [heq]
      simp [hd, hcw]
    · rw [heq]
      intro hfalse
      exact absurd hfalse (by simp [hd])
    · intro r' hcw'
      rw [hcw] at hcw'
      have : r = r' := Option.some.inj hcw'
      subst this
      rw [heq]
      exact ⟨rfl, rfl⟩
  · refine ⟨?_, ?_, ?_⟩
    · rw [heq]
      simp [h9, hcw]
    · intro _
      rw [heq]
    · intro r' hcw'
      rw [hcw] at hcw'
      exact Option.noConfusion hcw'
  · refine ⟨?_, ?_, ?_⟩
    · rw [heq]
      simp [hd, h9]
    · rw [heq]
      intro hfalse
      exact absurd hfalse (by simp [hd])
    · intro r' hcw'
      rw [hcw] at hcw'
      exact Option.noConfusion hcw'

theorem soloPlace_draw_win (g : Game) (i : Nat)
    (_hw : g.winner = none) (hd : g.isDraw = false) :
    ((soloPlace g i).isDraw = true ↔
      ((soloPlace g i).moveCount = 9 ∧ checkWinner (soloPlace g i).board = none)) ∧
    ((soloPlace g i).isDraw = true →
      (soloPlace g i).scores = { g.scores with draws := g.scores.draws + 1 }) ∧
    (∀ r, checkWinner (g.board.set i (some g.currentPlayer)) = some r →
      (soloPlace g i).winner = some r.winner ∧
      (soloPlace g i).scores = g.scores.inc r.winner) := by
  rcases soloPlace_cases g i with ⟨r, hcw, heq⟩ | ⟨hcw, h9, heq⟩ | ⟨hcw, h9, heq⟩
  · refine ⟨?_, ?_, ?_⟩
    · rw [heq]
      simp [hd, hcw]
    · rw [heq]
      intro hfalse
      exact absurd hfalse (by simp [hd])
    · intro r' hcw'
      rw [hcw] at hcw'
      have : r = r' := Option.some.inj hcw'
      subst this
      rw [heq]
      exact ⟨rfl, rfl⟩
  · refine ⟨?_, ?_, ?_⟩
    · rw [heq]
      simp [h9, hcw]
    · intro _
      rw [heq]
    · intro r' hcw'
      rw [hcw] at hcw'
      exact Option.noConfusion hcw'
  · refine ⟨?_, ?_, ?_⟩
    · rw [heq]
      simp [hd, h9]
    · rw [heq]
      intro hfalse
      exact absurd hfalse (by simp [hd])
    · intro r' hcw'
      rw [hcw] at hcw'
      exact Option.noConfusion hcw'

/-- C5: for every accepted move — in the room server and in the HTTP
variant — the resulting `isDraw` is true iff the resulting `moveCount` is 9
and `checkWinner` on the resulting board is `none`; when `isDraw` becomes
true the `draws` score is incremented, and when a winner is found that
symbol's score is incremented instead. -/
theorem draw_and_score_update_spec (s : ServerState) (c : ConnId) (rc : String)
    (room : Room) (q : ℚ) (now : Nat) (g : Game) (p : ℚ)
    (hrc : (s.conns c).roomCode = some rc) (hroom : s.rooms rc = some room)
    (hsym : (s.conns c).symbol = some room.currentPlayer)
    (hq : ¬(q < 0 ∨ 8 < q)) (hempty : boardRead room q = none)
    (hw : room.winner = none) (hd : room.isDraw = false)
    (hp : ¬(p < 0 ∨ 8 < p)) (hpint : p.den = 1)
    (hpempty : cellAt g.board p.num.toNat = none)
    (hgw : g.winner = none) (hgd : g.isDraw = false) :
    ((step s (.move c (some q) now)).1.rooms rc = some (placeMove room q now)) ∧
    ((placeMove room q now).isDraw = true ↔
      ((placeMove room q now).moveCount = 9 ∧
        checkWinner (placeMove room q now).board = none)) ∧
    ((placeMove room q now).isDraw = true →
      (placeMove room q now).scores =
        { room.scores with draws := room.scores.draws + 1 }) ∧
    (∀ r, checkWinner (boardWrite room q room.currentPlayer).board = some r →
      (placeMove room q now).winner = some r.winner ∧
      (placeMove room q now).scores = room.scores.inc r.winner) ∧
    (apiMove g (some p) = (soloPlace g p.num.toNat, none)) ∧
    ((soloPlace g p.num.toNat).isDraw = true ↔
      ((soloPlace g p.num.toNat).moveCount = 9 ∧
        checkWinner (soloPlace g p.num.toNat).board = none)) ∧
    ((soloPlace g p.num.toNat).isDraw = true →
      (soloPlace g p.num.toNat).scores = { g.scores with draws := g.scores.draws + 1 }) ∧
    (∀ r, checkWinner (g.board.set p.num.toNat (some g.currentPlayer)) = some r →
      (soloPlace g p.num.toNat).winner = some r.winner ∧
      (soloPlace g p.num.toNat).scores = g.scores.inc r.winner) := by
  obtain ⟨h1, h2, h3⟩ := placeMove_draw_win room q now hw hd
  obtain ⟨h4, h5, h6⟩ := soloPlace_draw_win g p.num.toNat hgw hgd
  refine ⟨?_, h1, h2, h3, apiMove_accepts g p hp hpint hpempty hgw hgd, h4, h5, h6⟩
  rw [handleMove_accepts s c rc room q now hrc hroom hsym hq hempty hw hd]
  simp [setRoom]

/-- Witness for C5: conn 0 (X) plays cell 4 of the fresh two-player room. -/
theorem draw_and_score_update_spec_witness :
    (step stateW (.move 0 (some 4) 7)).1.rooms "AAAA" = some (placeMove roomW 4 7) :=
  (draw_and_score_update_spec stateW 0 "AAAA" roomW 4 7 createNewGame 0 rfl rfl rfl
    (by decide) (by decide) rfl rfl (by decide) (by decide) (by decide) rfl rfl).1

/-- C6: a `join(code)` with no room under the normalized code yields
`Room not found`; with both slots occupied it yields `Room is full` and
changes nothing; otherwise the sender is bound to the first available slot
(X before O), that slot's pending disconnect timer (if any) is cancelled,
and `lastActivity` is refreshed to the current time. -/
theorem join_spec (s : ServerState) (c : ConnId) (raw : String) (now : Nat)
    (hopen : s.connOpen c = true) :
    (s.rooms (normalizeCode raw) = none →
      step s (.join c raw now) = (s, [(c, OutMsg.error "Room not found")])) ∧
    (∀ room, s.rooms (normalizeCode raw) = some room →
      room.players.X ≠ none → room.players.O ≠ none →
      step s (.join c raw now) = (s, [(c, OutMsg.error "Room is full")])) ∧
    (∀ room, s.rooms (normalizeCode raw) = some room → room.players.X = none →
      ∃ room', (step s (.join c raw now)).1.rooms (normalizeCode raw) = some room' ∧
        room'.players.get .X = some c ∧
        room'.players.get .O = room.players.get .O ∧
        (step s (.join c raw now)).1.conns c = ⟨some (normalizeCode raw), some .X⟩ ∧
        room'.disconnectTimers.get .X = none ∧
        room'.lastActivity = now ∧
        (∀ tid, room.disconnectTimers.get .X = some tid →
          (step s (.join c raw now)).1.timers = s.timers.filter fun t => t.id ≠ tid) ∧
        (room.disconnectTimers.get .X = none →
          (step s (.join c raw now)).1.timers = s.timers)) ∧
    (∀ room, s.rooms (normalizeCode raw) = some room →
      room.players.X ≠ none → room.players.O = none →
      ∃ room', (step s (.join c raw now)).1.rooms (normalizeCode raw) = some room' ∧
        room'.players.get .O = some c ∧
        room'.players.get .X = room.players.get .X ∧
        (step s (.join c raw now)).1.conns c = ⟨some (normalizeCode raw), some .O⟩ ∧
        room'.disconnectTimers.get .O = none ∧
        room'.lastActivity = now ∧
        (∀ tid, room.disconnectTimers.get .O = some tid →
          (step s (.join c raw now)).1.timers = s.timers.filter fun t => t.id ≠ tid) ∧
        (room.disconnectTimers.get .O = none →
          (step s (.join c raw now)).1.timers = s.timers)) := by
  refine ⟨?_, ?_, ?_, ?_⟩
  · intro hnone
    simp [step, handleJoin, hnone, sendTo, hopen]
  · intro room hroom hX hO
    have hfa : firstAvailable room.players = none := by
      simp [firstAvailable, hX, hO]
    simp [step, handleJoin, hroom, hfa, sendTo, hopen]
  · intro room hroom hX
    have hfa : firstAvailable room.players = some Sym.X := by
      simp [firstAvailable, hX]
    refine ⟨{ room with
        disconnectTimers := room.disconnectTimers.set Sym.X none
        players := room.players.set Sym.X (some c)
        lastActivity := now }, ?_, ?_, ?_, ?_, ?_, ?_, ?_, ?_⟩
    · simp only [step, handleJoin, hroom, hfa]
      exact setRoom_same _ _ _
    · simp [Players.get, Players.set]
    · simp [Players.get, Players.set]
    · simp only [step, handleJoin, hroom, hfa]
      exact setConn_same _ _ _
    · simp [Timers.get, Timers.set]
    · rfl
    · intro tid htid
      simp only [step, handleJoin, hroom, hfa, htid]
    · intro htid
      simp only [step, handleJoin, hroom, hfa, htid]
  · intro room hroom hX hO
    have hfa : firstAvailable room.players = some Sym.O := by
      simp [firstAvailable, hX, hO]
    refine ⟨{ room with
        disconnectTimers := room.disconnectTimers.set Sym.O none
        players := room.players.set Sym.O (some c)
        lastActivity := now }, ?_, ?_, ?_, ?_, ?_, ?_, ?_, ?_⟩
    · simp only [step, handleJoin, hroom, hfa]
      exact setRoom_same _ _ _
    · simp [Players.get, Players.set]
    · simp [Players.get, Players.set]
    · simp only [step, handleJoin, hroom, hfa]
      exact setConn_same _ _ _
    · simp [Timers.get, Timers.set]
    · rfl
    · intro tid htid
      simp only [step, handleJoin, hroom, hfa, htid]
    · intro htid
      simp only [step, handleJoin, hroom, hfa, htid]

/-- Witness for C6: joining a nonexistent room code from a fresh state. -/
theorem join_spec_witness :
    step initState (.join 0 "QQQQ" 5) = (initState, [(0, OutMsg.error "Room not found")]) :=
  (join_spec initState 0 "QQQQ" 5 rfl).1 rfl

/-- C7: a `reset` leaves the room's scores exactly as they were and clears
the round — all 9 board cells empty, `winner` and `winningLine` cleared,
`isDraw` false, `moveCount` 0; if the sender's room no longer exists the
handler does nothing. The HTTP variant's `/api/reset` behaves the same on
its single game. -/
theorem reset_preserves_scores_clears_board (s : ServerState) (c : ConnId)
    (swap : Bool) (now : Nat) (g : Game) :
    (∀ rc room, (s.conns c).roomCode = some rc → s.rooms rc = some room →
      ∃ room', (step s (.reset c swap now)).1.rooms rc = some room' ∧
        room'.scores = room.scores ∧
        room'.board = List.replicate 9 none ∧
        room'.winner = none ∧ room'.winningLine = none ∧
        room'.isDraw = false ∧ room'.moveCount = 0) ∧
    ((s.conns c).roomCode = none → step s (.reset c swap now) = (s, [])) ∧
    (∀ rc, (s.conns c).roomCode = some rc → s.rooms rc = none →
      step s (.reset c swap now) = (s, [])) ∧
    ((apiReset g).scores = g.scores ∧
      (apiReset g).board = List.replicate 9 none ∧
      (apiReset g).winner = none ∧ (apiReset g).winningLine = none ∧
      (apiReset g).isDraw = false ∧ (apiReset g).moveCount = 0) := by
  refine ⟨?_, ?_, ?_, ?_⟩
  · intro rc room hrc hroom
    refine ⟨{ (reshufflePlayers (clearRound room room.scores) s.conns swap).1 with
        lastActivity := now }, ?_, ?_, ?_, ?_, ?_, ?_, ?_⟩
    · simp only [step, handleReset, hrc, hroom]
      exact setRoom_same _ _ _
    · simp [reshufflePlayers, clearRound]
    · simp [reshufflePlayers, clearRound]
    · simp [reshufflePlayers, clearRound]
    · simp [reshufflePlayers, clearRound]
    · simp [reshufflePlayers, clearRound]
    · simp [reshufflePlayers, clearRound]
  · intro hrc
    simp [step, handleReset, hrc]
  · intro rc hrc hroom
    simp [step, handleReset, hrc, hroom]
  · exact ⟨rfl, rfl, rfl, rfl, rfl, rfl⟩

/-- Witness for C7: resetting the concrete two-player room. -/
theorem reset_preserves_scores_clears_board_witness :
    ∃ room', (step stateW (.reset 0 true 9)).1.rooms "AAAA" = some room' ∧
      room'.scores = roomW.scores ∧ room'.board = List.replicate 9 none ∧
      room'.winner = none ∧ room'.winningLine = none ∧
      room'.isDraw = false ∧ room'.moveCount = 0 :=
  (reset_preserves_scores_clears_board stateW 0 true 9 createNewGame).1 "AAAA" roomW rfl rfl

/-- In every room of the state, `winner` and `isDraw` are not both set. -/
def RoomsOk (s : ServerState) : Prop :=
  ∀ code room, s.rooms code = some room → (room.winner = none ∨ room.isDraw = false)

theorem placeMove_ok (room : Room) (q : ℚ) (now : Nat) (hw : room.winner = none)
    (hd : room.isDraw = false) :
    (placeMove room q now).winner = none ∨ (placeMove room q now).isDraw = false := by
  rcases placeMove_cases room q now with ⟨r, _, heq⟩ | ⟨_, _, heq⟩ | ⟨_, _, heq⟩
  · right
    rw [heq]
    exact hd
  · left
    rw [heq]
    exact hw
  · left
    rw [heq]
    exact hw

theorem roomsOk_step (s : ServerState) (e : Event) (h : RoomsOk s) :
    RoomsOk (step s e).1 := by
  cases e with
  | create c sym code now =>
    intro k room hr
    simp only [step, handleCreate] at hr
    by_cases hk : k = code
    · subst hk
      rw [setRoom_same] at hr
      obtain rfl := Option.some.inj hr
      left
      rfl
    · rw [setRoom_other _ _ _ _ hk] at hr
      exact h k room hr
  | join c raw now =>
    intro k room hr
    cases hroom : s.rooms (normalizeCode raw) with
    | none =>
      simp only [step, handleJoin, hroom] at hr
      exact h k room hr
    | some room0 =>
      cases hfa : firstAvailable room0.players with
      | none =>
        simp only [step, handleJoin, hroom, hfa] at hr
        exact h k room hr
      | some available =>
        simp only [step, handleJoin, hroom, hfa] at hr
        by_cases hk : k = normalizeCode raw
        · subst hk
          rw [setRoom_same] at hr
          obtain rfl := Option.some.inj hr
          exact h _ room0 hroom
        · rw [setRoom_other _ _ _ _ hk] at hr
          exact h k room hr
  | move c index now =>
    intro k room hr
    cases hrc : (s.conns c).roomCode with
    | none =>
      simp only [step, handleMove, hrc] at hr
      exact h k room hr
    | some rc =>
      cases hroom : s.rooms rc with
      | none =>
        simp only [step, handleMove, hrc, hroom] at hr
        exact h k room hr
      | some room0 =>
        by_cases hsymg : (s.conns c).symbol ≠ some room0.currentPlayer
        · simp only [step, handleMove, hrc, hroom, if_pos hsymg] at hr
          exact h k room hr
        · cases index with
          | none =>
            simp only [step, handleMove, hrc, hroom, if_neg hsymg] at hr
            exact h k room hr
          | some i =>
            by_cases hcond : i < 0 ∨ 8 < i ∨ boardRead room0 i ≠ none ∨
                room0.winner ≠ none ∨ room0.isDraw = true
            · simp only [step, handleMove, hrc, hroom, if_neg hsymg, if_pos hcond] at hr
              exact h k room hr
            · simp only [step, handleMove, hrc, hroom, if_neg hsymg, if_neg hcond] at hr
              push_neg at hcond
              obtain ⟨-, -, -, hw0, hd0⟩ := hcond
              by_cases hk : k = rc
              · subst hk
                rw [setRoom_same] at hr
                obtain rfl := Option.some.inj hr
                exact placeMove_ok room0 i now hw0
                  (by simpa using hd0)
              · rw [setRoom_other _ _ _ _ hk] at hr
                exact h k room hr
  | reset c swap now =>
    intro k room hr
    cases hrc : (s.conns c).roomCode with
    | none =>
      simp only [step, handleReset, hrc] at hr
      exact h k room hr
    | some rc =>
      cases hroom : s.rooms rc with
      | none =>
        simp only [step, handleReset, hrc, hroom] at hr
        exact h k room hr
      | some room0 =>
        simp only [step, handleReset, hrc, hroom, reshufflePlayers, clearRound] at hr
        by_cases hk : k = rc
        · subst hk
          rw [setRoom_same] at hr
          obtain rfl := Option.some.inj hr
          left
          rfl
        · rw [setRoom_other _ _ _ _ hk] at hr
          exact h k room hr
  | newGame c swap now =>
    intro k room hr
    cases hrc : (s.conns c).roomCode with
    | none =>
      simp only [step, handleNewGame, hrc] at hr
      exact h k room hr
    | some rc =>
      cases hroom : s.rooms rc with
      | none =>
        simp only [step, handleNewGame, hrc, hroom] at hr
        exact h k room hr
      | some room0 =>
        simp only [step, handleNewGame, hrc, hroom, reshufflePlayers, clearRound] at hr
        by_cases hk : k = rc
        · subst hk
          rw [setRoom_same] at hr
          obtain rfl := Option.some.inj hr
          left
          rfl
        · rw [setRoom_other _ _ _ _ hk] at hr
          exact h k room hr
  | disconnect c =>
    intro k room hr
    cases hrc : (s.conns c).roomCode with
    | none =>
      simp only [step, handleClose, hrc] at hr
      exact h k room hr
    | some rc =>
      cases hsym : (s.conns c).symbol with
      | none =>
        simp only [step, handleClose, hrc, hsym] at hr
        exact h k room hr
      | some sym =>
        cases hroom : s.rooms rc with
        | none =>
          simp only [step, handleClose, hrc, hsym, hroom] at hr
          exact h k room hr
        | some room0 =>
          simp only [step, handleClose, hrc, hsym, hroom] at hr
          by_cases hk : k = rc
          · subst hk
            rw [setRoom_same] at hr
            obtain rfl := Option.some.inj hr
            exact h _ room0 hroom
          · rw [setRoom_other _ _ _ _ hk] at hr
            exact h k room hr
  | timerFire tid =>
    intro k room hr
    cases hfind : s.timers.find? (fun t => t.id = tid) with
    | none =>
      simp only [step, handleTimerFire, hfind] at hr
      exact h k room hr
    | some t =>
      cases hroom : s.rooms t.code with
      | none =>
        simp only [step, handleTimerFire, hfind, hroom] at hr
        exact h k room hr
      | some r0 =>
        by_cases hempty : r0.players.get t.sym = none
        · simp only [step, handleTimerFire, hfind, hroom, if_pos hempty] at hr
          by_cases hk : k = t.code
          · subst hk
            rw [setRoom_same] at hr
            exact Option.noConfusion hr
          · rw [setRoom_other _ _ _ _ hk] at hr
            exact h k room hr
        · simp only [step, handleTimerFire, hfind, hroom, if_neg hempty] at hr
          exact h k room hr

/-- Every reachable state satisfies `RoomsOk`. -/
theorem reachable_roomsOk (s : ServerState) (h : Reachable s) : RoomsOk s := by
  induction h with
  | init =>
    intro code room hr
    exact Option.noConfusion hr
  | step _ _ ih =>
    exact roomsOk_step _ _ ih

/-- C3: in every reachable room state, `winner` and `isDraw` are never both
set; while either is set, any move leaves the room untouched and a sender
bound to that room receives an error; and a `reset` or `new` clears both. -/
theorem winner_draw_exclusive_and_moves_frozen :
    (∀ s, Reachable s → ∀ code room, s.rooms code = some room →
      ¬(room.winner ≠ none ∧ room.isDraw = true)) ∧
    (∀ s c index now code room, s.rooms code = some room →
      (room.winner ≠ none ∨ room.isDraw = true) →
      (step s (.move c index now)).1.rooms code = some room) ∧
    (∀ s c index now code room sym, s.rooms code = some room →
      (room.winner ≠ none ∨ room.isDraw = true) →
      s.conns c = ⟨some code, some sym⟩ → s.connOpen c = true →
      (step s (.move c index now)).2 = [(c, OutMsg.error "Not your turn")] ∨
      (step s (.move c index now)).2 = [(c, OutMsg.error "Invalid move")]) ∧
    (∀ s c swap now rc room, (s.conns c).roomCode = some rc → s.rooms rc = some room →
      ∃ room', (step s (.reset c swap now)).1.rooms rc = some room' ∧
        room'.winner = none ∧ room'.isDraw = false) ∧
    (∀ s c swap now rc room, (s.conns c).roomCode = some rc → s.rooms rc = some room →
      ∃ room', (step s (.newGame c swap now)).1.rooms rc = some room' ∧
        room'.winner = none ∧ room'.isDraw = false) := by
  refine ⟨?_, ?_, ?_, ?_, ?_⟩
  · intro s hs code room hr ⟨hw, hd⟩
    rcases reachable_roomsOk s hs code room hr with h | h
    · exact hw h
    · rw [hd] at h
      exact Bool.noConfusion h
  · intro s c index now code room hroom hdec
    cases hrc : (s.conns c).roomCode with
    | none =>
      simpa [step, handleMove, hrc] using hroom
    | some rc =>
      cases hroom2 : s.rooms rc with
      | none =>
        simpa [step, handleMove, hrc, hroom2] using hroom
      | some room2 =>
        by_cases hsymg : (s.conns c).symbol ≠ some room2.currentPlayer
        · simpa [step, handleMove, hrc, hroom2, if_pos hsymg] using hroom
        · cases index with
          | none =>
            simpa [step, handleMove, hrc, hroom2, if_neg hsymg] using hroom
          | some i =>
            by_cases hk : code = rc
            · subst hk
              rw [hroom] at hroom2
              obtain rfl := Option.some.inj hroom2
              have hcond : i < 0 ∨ 8 < i ∨ boardRead room i ≠ none ∨
                  room.winner ≠ none ∨ room.isDraw = true := by tauto
              simp [step, handleMove, hrc, hroom, if_neg hsymg, if_pos hcond]
            · by_cases hcond : i < 0 ∨ 8 < i ∨ boardRead room2 i ≠ none ∨
                  room2.winner ≠ none ∨ room2.isDraw = true
              · simpa [step, handleMove, hrc, hroom2, if_neg hsymg, if_pos hcond] using hroom
              · simp only [step, handleMove, hrc, hroom2, if_neg hsymg, if_neg hcond]
                rw [setRoom_other _ _ _ _ hk]
                exact hroom
  · intro s c index now code room sym hroom hdec hconn hopen
    have hrc : (s.conns c).roomCode = some code := by rw [hconn]
    by_cases hsymg : (s.conns c).symbol ≠ some room.currentPlayer
    · left
      simp [step, handleMove, hrc, hroom, if_pos hsymg, sendTo, hopen]
    · right
      cases index with
      | none => simp [step, handleMove, hrc, hroom, if_neg hsymg, sendTo, hopen]
      | some i =>
        have hcond : i < 0 ∨ 8 < i ∨ boardRead room i ≠ none ∨
            room.winner ≠ none ∨ room.isDraw = true := by tauto
        simp [step, handleMove, hrc, hroom, if_neg hsymg, if_pos hcond, sendTo, hopen]
  · intro s c swap now rc room hrc hroom
    refine ⟨{ (reshufflePlayers (clearRound room room.scores) s.conns swap).1 with
        lastActivity := now }, ?_, rfl, rfl⟩
    simp only [step, handleReset, hrc, hroom]
    exact setRoom_same _ _ _
  · intro s c swap now rc room hrc hroom
    refine ⟨{ (reshufflePlayers (clearRound room ⟨0, 0, 0⟩) s.conns swap).1 with
        lastActivity := now }, ?_, rfl, rfl⟩
    simp only [step, handleNewGame, hrc, hroom]
    exact setRoom_same _ _ _

/-- Witness for C3: the initial state is reachable and a decided concrete
room rejects a move without mutation. -/
theorem winner_draw_exclusive_and_moves_frozen_witness :
    ¬(roomW.winner ≠ none ∧ roomW.isDraw = true) ∧
    (∃ room', (step stateW (.reset 0 false 9)).1.rooms "AAAA" = some room' ∧
      room'.winner = none ∧ room'.isDraw = false) :=
  ⟨fun h => h.1 (by decide),
    winner_draw_exclusive_and_moves_frozen.2.2.2.1 stateW 0 false 9 "AAAA" roomW rfl rfl⟩

/-- C8: disconnect of a bound connection with a live room clears its slot
immediately, notifies the surviving opponent quoting the 60-second grace
period, and schedules a grace timer (60000 ms) for that slot; when a
scheduled timer fires with the slot still empty, the room is destroyed and
the surviving opponent is told the room closed; with the slot reclaimed the
firing changes nothing but the timer list; a cancelled timer never runs. -/
theorem disconnect_grace_lifecycle :
    (∀ s c rc sym room, s.conns c = ⟨some rc, some sym⟩ → s.rooms rc = some room →
      ∃ room', (step s (.disconnect c)).1.rooms rc = some room' ∧
        room'.players.get sym = none ∧
        room'.disconnectTimers.get sym = some s.nextTimerId ∧
        (⟨s.nextTimerId, rc, sym, DISCONNECT_GRACE⟩ : PendingTimer) ∈
          (step s (.disconnect c)).1.timers ∧
        DISCONNECT_GRACE = 60 * 1000 ∧
        (∀ d, room.players.get sym.flip = some d → d ≠ c → s.connOpen d = true →
          (step s (.disconnect c)).2 = [(d, OutMsg.opponentLeft 60)]) ∧
        (room.players.get sym.flip = none → (step s (.disconnect c)).2 = [])) ∧
    (∀ s tid t r, s.timers.find? (fun u => u.id = tid) = some t →
      s.rooms t.code = some r →
      (r.players.get t.sym = none →
        (step s (.timerFire tid)).1.rooms t.code = none ∧
        (∀ d, r.players.get t.sym.flip = some d → s.connOpen d = true →
          (step s (.timerFire tid)).2 =
            [(d, OutMsg.roomClosed "Opponent did not reconnect")]) ∧
        (r.players.get t.sym.flip = none → (step s (.timerFire tid)).2 = [])) ∧
      (r.players.get t.sym ≠ none →
        (step s (.timerFire tid)).1.rooms = s.rooms ∧
        (step s (.timerFire tid)).2 = [])) ∧
    (∀ s tid, s.timers.find? (fun u => u.id = tid) = none →
      step s (.timerFire tid) = (s, [])) := by
  refine ⟨?_, ?_, ?_⟩
  · intro s c rc sym room hconn hroom
    have hrc : (s.conns c).roomCode = some rc := by rw [hconn]
    have hsym : (s.conns c).symbol = some sym := by rw [hconn]
    refine ⟨{ room with
        players := room.players.set sym none
        disconnectTimers := room.disconnectTimers.set sym (some s.nextTimerId) },
      ?_, ?_, ?_, ?_, rfl, ?_, ?_⟩
    · simp only [step, handleClose, hrc, hsym, hroom]
      exact setRoom_same _ _ _
    · exact players_get_set_same _ _ _
    · exact timers_get_set_same _ _ _
    · simp [step, handleClose, hrc, hsym, hroom]
    · intro d hd hne hopen
      have hget : (room.players.set sym none).get sym.flip = some d := by
        rw [players_get_set_other _ _ _ _ (Sym.flip_ne sym)]
        exact hd
      simp [step, handleClose, hrc, hsym, hroom, hget, sendTo, hne, hopen]
    · intro hd
      have hget : (room.players.set sym none).get sym.flip = none := by
        rw [players_get_set_other _ _ _ _ (Sym.flip_ne sym)]
        exact hd
      simp [step, handleClose, hrc, hsym, hroom, hget]
  · intro s tid t r hfind hroom
    constructor
    · intro hempty
      refine ⟨?_, ?_, ?_⟩
      · simp only [step, handleTimerFire, hfind, hroom, if_pos hempty]
        exact setRoom_same _ _ _
      · intro d hd hopen
        simp [step, handleTimerFire, hfind, hroom, if_pos hempty, hd, sendTo, hopen]
      · intro hd
        simp [step, handleTimerFire, hfind, hroom, if_pos hempty, hd]
    · intro hne
      constructor
      · simp [step, handleTimerFire, hfind, hroom, if_neg hne]
      · simp [step, handleTimerFire, hfind, hroom, if_neg hne]
  · intro s tid hfind
    simp [step, handleTimerFire, hfind]

/-- Witness for C8: conn 1 (holding O in the concrete room) disconnects. -/
theorem disconnect_grace_lifecycle_witness :
    ∃ room', (step stateW (.disconnect 1)).1.rooms "AAAA" = some room' ∧
      room'.players.get Sym.O = none ∧
      room'.disconnectTimers.get Sym.O = some stateW.nextTimerId ∧
      (⟨stateW.nextTimerId, "AAAA", Sym.O, DISCONNECT_GRACE⟩ : PendingTimer) ∈
        (step stateW (.disconnect 1)).1.timers ∧
      DISCONNECT_GRACE = 60 * 1000 ∧
      (∀ d, roomW.players.get Sym.O.flip = some d → d ≠ 1 → stateW.connOpen d = true →
        (step stateW (.disconnect 1)).2 = [(d, OutMsg.opponentLeft 60)]) ∧
      (roomW.players.get Sym.O.flip = none → (step stateW (.disconnect 1)).2 = []) :=
  disconnect_grace_lifecycle.1 stateW 1 "AAAA" Sym.O roomW rfl rfl

/-- C10: the room built by `create` starts with `currentPlayer = X`, and
after any `reset` or `new` — whatever the random reshuffle outcome —
`currentPlayer` is X again; consequently a bound sender holding a symbol
other than X cannot open the round: its move is rejected `Not your turn`. -/
theorem currentPlayer_X_after_create_reset_new :
    (∀ s c sym code now r, (step s (.create c sym code now)).1.rooms code = some r →
      r.currentPlayer = Sym.X) ∧
    (∀ s c swap now rc r, (s.conns c).roomCode = some rc →
      (step s (.reset c swap now)).1.rooms rc = some r → r.currentPlayer = Sym.X) ∧
    (∀ s c swap now rc r, (s.conns c).roomCode = some rc →
      (step s (.newGame c swap now)).1.rooms rc = some r → r.currentPlayer = Sym.X) ∧
    (∀ s c rc room index now sym, s.conns c = ⟨some rc, some sym⟩ →
      s.rooms rc = some room → room.currentPlayer = Sym.X → sym ≠ Sym.X →
      s.connOpen c = true →
      step s (.move c index now) = (s, [(c, OutMsg.error "Not your turn")])) := by
  refine ⟨?_, ?_, ?_, ?_⟩
  · intro s c sym code now r h
    simp only [step, handleCreate, setRoom_same] at h
    obtain rfl := Option.some.inj h
    rfl
  · intro s c swap now rc r hrc h
    cases hroom : s.rooms rc with
    | none =>
      simp [step, handleReset, hrc, hroom] at h
    | some room0 =>
      simp only [step, handleReset, hrc, hroom, reshufflePlayers, clearRound,
        setRoom_same] at h
      obtain rfl := Option.some.inj h
      rfl
  · intro s c swap now rc r hrc h
    cases hroom : s.rooms rc with
    | none =>
      simp [step, handleNewGame, hrc, hroom] at h
    | some room0 =>
      simp only [step, handleNewGame, hrc, hroom, reshufflePlayers, clearRound,
        setRoom_same] at h
      obtain rfl := Option.some.inj h
      rfl
  · intro s c rc room index now sym hconn hroom hcp hne hopen
    have hrc : (s.conns c).roomCode = some rc := by rw [hconn]
    have hsymg : (s.conns c).symbol ≠ some room.currentPlayer := by
      rw [hconn, hcp]
      simp [hne]
    simp only [step, handleMove, hrc, hroom]
    rw [if_pos hsymg]
    simp [sendTo, hopen]

/-- Witness for C10: a freshly created room has `currentPlayer = X`. -/
theorem currentPlayer_X_after_create_reset_new_witness :
    ({ freshRoom "AAAA" 0 with players := ⟨some 0, none⟩ } : Room).currentPlayer = Sym.X :=
  currentPlayer_X_after_create_reset_new.1 initState 0 Sym.X "AAAA" 0 _ (by decide)

/-- Validity strengthened with the spec's stated precondition that `create`
and `join` are sent only by unbound connections. -/
def ValidUnbound (s : ServerState) : Event → Prop
  | .create c sym code now => Valid s (.create c sym code now) ∧ s.conns c = ⟨none, none⟩
  | .join c raw now => Valid s (.join c raw now) ∧ s.conns c = ⟨none, none⟩
  | e => Valid s e

/-- States reachable when `create`/`join` only come from unbound connections. -/
inductive ReachableUnbound : ServerState → Prop where
  | init : ReachableUnbound initState
  | step {s : ServerState} {e : Event} : ReachableUnbound s → ValidUnbound s e →
      ReachableUnbound (step s e).1

/-- Every occupied slot points back at a connection whose own tag fields name
exactly that room and symbol. -/
def SlotInv (s : ServerState) : Prop :=
  ∀ code room sym c, s.rooms code = some room → room.players.get sym = some c →
    s.conns c = ⟨some code, some sym⟩

theorem tagSymbol_of_holder (conns : ConnId → Conn) (p : Option ConnId) (sym : Sym)
    (d : ConnId) (h : p = some d) :
    tagSymbol conns p sym d = { conns d with symbol := some sym } := by
  subst h
  simp [tagSymbol, setSymbol]

theorem tagSymbol_of_other (conns : ConnId → Conn) (p : Option ConnId) (sym : Sym)
    (d : ConnId) (h : ∀ e, p = some e → e ≠ d) :
    tagSymbol conns p sym d = conns d := by
  cases hp : p with
  | none => simp [tagSymbol]
  | some e =>
    have hne : d ≠ e := Ne.symm (h e hp)
    simp [tagSymbol, setSymbol, hne]

theorem reshuffledConns_spec (s : ServerState) (rc : String) (p0 p1 : Option ConnId)
    (h0 : ∀ d, p0 = some d → (s.conns d).roomCode = some rc)
    (h1 : ∀ d, p1 = some d → (s.conns d).roomCode = some rc)
    (hne : ∀ d e, p0 = some d → p1 = some e → d ≠ e) :
    (∀ d, p0 = some d →
      tagSymbol (tagSymbol s.conns p0 .X) p1 .O d = ⟨some rc, some .X⟩) ∧
    (∀ d, p1 = some d →
      tagSymbol (tagSymbol s.conns p0 .X) p1 .O d = ⟨some rc, some .O⟩) ∧
    (∀ d, (∀ e, p0 = some e → e ≠ d) → (∀ e, p1 = some e → e ≠ d) →
      tagSymbol (tagSymbol s.conns p0 .X) p1 .O d = s.conns d) := by
  refine ⟨?_, ?_, ?_⟩
  · intro d hd
    rw [tagSymbol_of_other _ p1 _ d fun e he => Ne.symm (hne d e hd he)]
    rw [tagSymbol_of_holder _ p0 _ d hd]
    have hrc' : (s.conns d).roomCode = some rc := h0 d hd
    cases hc : s.conns d with
    | mk r sy =>
      rw [hc] at hrc'
      rw [show r = some rc from hrc']
  · intro d hd
    rw [tagSymbol_of_holder _ p1 _ d hd]
    rw [tagSymbol_of_other _ p0 _ d fun e he hed => (hne e d he hd) hed]
    have hrc' : (s.conns d).roomCode = some rc := h1 d hd
    cases hc : s.conns d with
    | mk r sy =>
      rw [hc] at hrc'
      rw [show r = some rc from hrc']
  · intro d hd0 hd1
    rw [tagSymbol_of_other _ p1 _ d hd1]
    rw [tagSymbol_of_other _ p0 _ d hd0]

theorem placeMove_players (room : Room) (q : ℚ) (now : Nat) :
    (placeMove room q now).players = room.players := by
  rcases placeMove_cases room q now with ⟨r, _, heq⟩ | ⟨_, _, heq⟩ | ⟨_, _, heq⟩ <;>
    rw [heq]

/-- Core of the reset/new slot-invariant argument: after the round is cleared
and the slots reshuffled, every occupied slot again names its holder. -/
theorem slotInv_reset_core (s : ServerState) (rc : String) (room0 : Room) (sc : Scores)
    (swap : Bool) (now : Nat) (h : SlotInv s) (hroom : s.rooms rc = some room0) :
    SlotInv { s with
      rooms := setRoom s.rooms rc
        (some { (reshufflePlayers (clearRound room0 sc) s.conns swap).1 with
          lastActivity := now })
      conns := (reshufflePlayers (clearRound room0 sc) s.conns swap).2 } := by
  have hX : ∀ d, room0.players.X = some d → s.conns d = ⟨some rc, some Sym.X⟩ :=
    fun d hd => h rc room0 Sym.X d hroom hd
  have hO : ∀ d, room0.players.O = some d → s.conns d = ⟨some rc, some Sym.O⟩ :=
    fun d hd => h rc room0 Sym.O d hroom hd
  cases swap with
  | false =>
    have h0 : ∀ d, room0.players.X = some d → (s.conns d).roomCode = some rc :=
      fun d hd => by rw [hX d hd]
    have h1 : ∀ d, room0.players.O = some d → (s.conns d).roomCode = some rc :=
      fun d hd => by rw [hO d hd]
    have hne : ∀ d e, room0.players.X = some d → room0.players.O = some e → d ≠ e := by
      intro d e hd he hde
      have h1' := hX d hd
      rw [hde, hO e he] at h1'
      exact Sym.noConfusion (Option.some.inj (congrArg Conn.symbol h1'))
    obtain ⟨ha, hb, hc⟩ := reshuffledConns_spec s rc room0.players.X room0.players.O
      h0 h1 hne
    intro k room1 sym' d hr hp
    simp only [reshufflePlayers, clearRound, Bool.false_eq_true, if_false] at hr hp ⊢
    by_cases hk : k = rc
    · subst hk
      rw [setRoom_same] at hr
      obtain rfl := Option.some.inj hr
      cases sym' with
      | X => exact ha d hp
      | O => exact hb d hp
    · rw [setRoom_other _ _ _ _ hk] at hr
      have hcold := h k room1 sym' d hr hp
      have hd0 : ∀ e, room0.players.X = some e → e ≠ d := by
        intro e he hed
        have h1' := hX e he
        rw [hed, hcold] at h1'
        exact hk (Option.some.inj (congrArg Conn.roomCode h1'))
      have hd1 : ∀ e, room0.players.O = some e → e ≠ d := by
        intro e he hed
        have h1' := hO e he
        rw [hed, hcold] at h1'
        exact hk (Option.some.inj (congrArg Conn.roomCode h1'))
      rw [hc d hd0 hd1]
      exact hcold
  | true =>
    have h0 : ∀ d, room0.players.O = some d → (s.conns d).roomCode = some rc :=
      fun d hd => by rw [hO d hd]
    have h1 : ∀ d, room0.players.X = some d → (s.conns d).roomCode = some rc :=
      fun d hd => by rw [hX d hd]
    have hne : ∀ d e, room0.players.O = some d → room0.players.X = some e → d ≠ e := by
      intro d e hd he hde
      have h1' := hO d hd
      rw [hde, hX e he] at h1'
      exact Sym.noConfusion (Option.some.inj (congrArg Conn.symbol h1'))
    obtain ⟨ha, hb, hc⟩ := reshuffledConns_spec s rc room0.players.O room0.players.X
      h0 h1 hne
    intro k room1 sym' d hr hp
    simp only [reshufflePlayers, clearRound, if_true] at hr hp ⊢
    by_cases hk : k = rc
    · subst hk
      rw [setRoom_same] at hr
      obtain rfl := Option.some.inj hr
      cases sym' with
      | X => exact ha d hp
      | O => exact hb d hp
    · rw [setRoom_other _ _ _ _ hk] at hr
      have hcold := h k room1 sym' d hr hp
      have hd0 : ∀ e, room0.players.O = some e → e ≠ d := by
        intro e he hed
        have h1' := hO e he
        rw [hed, hcold] at h1'
        exact hk (Option.some.inj (congrArg Conn.roomCode h1'))
      have hd1 : ∀ e, room0.players.X = some e → e ≠ d := by
        intro e he hed
        have h1' := hX e he
        rw [hed, hcold] at h1'
        exact hk (Option.some.inj (congrArg Conn.roomCode h1'))
      rw [hc d hd0 hd1]
      exact hcold

theorem slotInv_step (s : ServerState) (e : Event) (hv : ValidUnbound s e)
    (h : SlotInv s) : SlotInv (step s e).1 := by
  cases e with
  | create c sym code now =>
    obtain ⟨-, hub⟩ := hv
    intro k room sym' d hr hp
    simp only [step, handleCreate] at hr ⊢
    by_cases hk : k = code
    · subst hk
      rw [setRoom_same] at hr
      obtain rfl := Option.some.inj hr
      cases sym <;> cases sym' <;> simp [Players.set, Players.get] at hp <;>
        subst hp <;> simp [setConn]
    · rw [setRoom_other _ _ _ _ hk] at hr
      have hc := h k room sym' d hr hp
      have hdc : d ≠ c := by
        intro hdc
        rw [hdc, hub] at hc
        exact Option.noConfusion (congrArg Conn.roomCode hc)
      rw [setConn_other _ _ _ _ hdc]
      exact hc
  | join c raw now =>
    obtain ⟨-, hub⟩ := hv
    intro k room sym' d hr hp
    cases hroom : s.rooms (normalizeCode raw) with
    | none =>
      simp only [step, handleJoin, hroom] at hr ⊢
      exact h k room sym' d hr hp
    | some room0 =>
      cases hfa : firstAvailable room0.players with
      | none =>
        simp only [step, handleJoin, hroom, hfa] at hr ⊢
        exact h k room sym' d hr hp
      | some available =>
        simp only [step, handleJoin, hroom, hfa] at hr ⊢
        by_cases hk : k = normalizeCode raw
        · subst hk
          rw [setRoom_same] at hr
          obtain rfl := Option.some.inj hr
          by_cases hsa : sym' = available
          · subst hsa
            rw [players_get_set_same] at hp
            obtain rfl := Option.some.inj hp
            rw [setConn_same]
          · rw [players_get_set_other _ _ _ _ hsa] at hp
            have hc := h _ room0 sym' d hroom hp
            have hdc : d ≠ c := by
              intro hdc
              rw [hdc, hub] at hc
              exact Option.noConfusion (congrArg Conn.roomCode hc)
            rw [setConn_other _ _ _ _ hdc]
            exact hc
        · rw [setRoom_other _ _ _ _ hk] at hr
          have hc := h k room sym' d hr hp
          have hdc : d ≠ c := by
            intro hdc
            rw [hdc, hub] at hc
            exact Option.noConfusion (congrArg Conn.roomCode hc)
          rw [setConn_other _ _ _ _ hdc]
          exact hc
  | move c index now =>
    intro k room sym' d hr hp
    cases hrc : (s.conns c).roomCode with
    | none =>
      simp only [step, handleMove, hrc] at hr ⊢
      exact h k room sym' d hr hp
    | some rc =>
      cases hroom : s.rooms rc with
      | none =>
        simp only [step, handleMove, hrc, hroom] at hr ⊢
        exact h k room sym' d hr hp
      | some room0 =>
        by_cases hsymg : (s.conns c).symbol ≠ some room0.currentPlayer
        · simp only [step, handleMove, hrc, hroom, if_pos hsymg] at hr ⊢
          exact h k room sym' d hr hp
        · cases index with
          | none =>
            simp only [step, handleMove, hrc, hroom, if_neg hsymg] at hr ⊢
            exact h k room sym' d hr hp
          | some i =>
            by_cases hcond : i < 0 ∨ 8 < i ∨ boardRead room0 i ≠ none ∨
                room0.winner ≠ none ∨ room0.isDraw = true
            · simp only [step, handleMove, hrc, hroom, if_neg hsymg,
                if_pos hcond] at hr ⊢
              exact h k room sym' d hr hp
            · simp only [step, handleMove, hrc, hroom, if_neg hsymg,
                if_neg hcond] at hr ⊢
              by_cases hk : k = rc
              · subst hk
                rw [setRoom_same] at hr
                obtain rfl := Option.some.inj hr
                rw [placeMove_players] at hp
                exact h _ room0 sym' d hroom hp
              · rw [setRoom_other _ _ _ _ hk] at hr
                exact h k room sym' d hr hp
  | reset c swap now =>
    cases hrc : (s.conns c).roomCode with
    | none =>
      intro k room sym' d hr hp
      simp only [step, handleReset, hrc] at hr ⊢
      exact h k room sym' d hr hp
    | some rc =>
      cases hroom : s.rooms rc with
      | none =>
        intro k room sym' d hr hp
        simp only [step, handleReset, hrc, hroom] at hr ⊢
        exact h k room sym' d hr hp
      | some room0 =>
        have hcore := slotInv_reset_core s rc room0 room0.scores swap now h hroom
        intro k room sym' d hr hp
        simp only [step, handleReset, hrc, hroom] at hr ⊢
        exact hcore k room sym' d hr hp
  | newGame c swap now =>
    cases hrc : (s.conns c).roomCode with
    | none =>
      intro k room sym' d hr hp
      simp only [step, handleNewGame, hrc] at hr ⊢
      exact h k room sym' d hr hp
    | some rc =>
      cases hroom : s.rooms rc with
      | none =>
        intro k room sym' d hr hp
        simp only [step, handleNewGame, hrc, hroom] at hr ⊢
        exact h k room sym' d hr hp
      | some room0 =>
        have hcore := slotInv_reset_core s rc room0 ⟨0, 0, 0⟩ swap now h hroom
        intro k room sym' d hr hp
        simp only [step, handleNewGame, hrc, hroom] at hr ⊢
        exact hcore k room sym' d hr hp
  | disconnect c =>
    intro k room sym' d hr hp
    cases hrc : (s.conns c).roomCode with
    | none =>
      simp only [step, handleClose, hrc] at hr ⊢
      exact h k room sym' d hr hp
    | some rc =>
      cases hsym : (s.conns c).symbol with
      | none =>
        simp only [step, handleClose, hrc, hsym] at hr ⊢
        exact h k room sym' d hr hp
      | some sym =>
        cases hroom : s.rooms rc with
        | none =>
          simp only [step, handleClose, hrc, hsym, hroom] at hr ⊢
          exact h k room sym' d hr hp
        | some room0 =>
          simp only [step, handleClose, hrc, hsym, hroom] at hr ⊢
          by_cases hk : k = rc
          · subst hk
            rw [setRoom_same] at hr
            obtain rfl := Option.some.inj hr
            by_cases hsa : sym' = sym
            · subst hsa
              rw [players_get_set_same] at hp
              exact Option.noConfusion hp
            · rw [players_get_set_other _ _ _ _ hsa] at hp
              exact h _ room0 sym' d hroom hp
          · rw [setRoom_other _ _ _ _ hk] at hr
            exact h k room sym' d hr hp
  | timerFire tid =>
    intro k room sym' d hr hp
    cases hfind : s.timers.find? (fun t => t.id = tid) with
    | none =>
      simp only [step, handleTimerFire, hfind] at hr ⊢
      exact h k room sym' d hr hp
    | some t =>
      cases hroom : s.rooms t.code with
      | none =>
        simp only [step, handleTimerFire, hfind, hroom] at hr ⊢
        exact h k room sym' d hr hp
      | some r0 =>
        by_cases hempty : r0.players.get t.sym = none
        · simp only [step, handleTimerFire, hfind, hroom, if_pos hempty] at hr ⊢
          by_cases hk : k = t.code
          · subst hk
            rw [setRoom_same] at hr
            exact Option.noConfusion hr
          · rw [setRoom_other _ _ _ _ hk] at hr
            exact h k room sym' d hr hp
        · simp only [step, handleTimerFire, hfind, hroom, if_neg hempty] at hr ⊢
          exact h k room sym' d hr hp

/-- Every `ReachableUnbound` state satisfies the slot invariant. -/
theorem reachableUnbound_slotInv (s : ServerState) (h : ReachableUnbound s) :
    SlotInv s := by
  induction h with
  | init =>
    intro code room sym c hr hp
    exact Option.noConfusion hr
  | step _ hv ih =>
    exact slotInv_step _ _ hv ih

/-- Counterexample to C9 as stated: the handlers never check that the sender
is unbound, so a connection that is already bound to room "AAAA" and sends
`create` again ends up holding the X slot of both rooms "AAAA" and "BBBB"
simultaneously, after a valid reachable sequence of two `create` events. -/
theorem slot_exclusivity_counterexample :
    Valid initState (.create 0 Sym.X "AAAA" 0) ∧
    Valid (step initState (.create 0 Sym.X "AAAA" 0)).1 (.create 0 Sym.X "BBBB" 1) ∧
    Reachable (step (step initState (.create 0 Sym.X "AAAA" 0)).1
      (.create 0 Sym.X "BBBB" 1)).1 ∧
    (∃ r₁ r₂,
      (step (step initState (.create 0 Sym.X "AAAA" 0)).1
        (.create 0 Sym.X "BBBB" 1)).1.rooms "AAAA" = some r₁ ∧
      (step (step initState (.create 0 Sym.X "AAAA" 0)).1
        (.create 0 Sym.X "BBBB" 1)).1.rooms "BBBB" = some r₂ ∧
      r₁.players.get Sym.X = some 0 ∧ r₂.players.get Sym.X = some 0 ∧
      "AAAA" ≠ "BBBB") := by
  refine ⟨⟨rfl, rfl⟩, ⟨rfl, by decide⟩, ?_, ?_⟩
  · exact Reachable.step (Reachable.step Reachable.init ⟨rfl, rfl⟩) ⟨rfl, by decide⟩
  · exact ⟨{ freshRoom "AAAA" 0 with players := ⟨some 0, none⟩ },
      { freshRoom "BBBB" 1 with players := ⟨some 0, none⟩ },
      by decide, by decide, by decide, by decide, by decide⟩

/-- C9 (amended): provided every `create` and `join` is sent by an unbound
connection — the precondition the spec's protocol table states — every
occupied slot of every live room names a connection whose own tag fields
record exactly that room and symbol, so each connection occupies at most one
slot across all live rooms. Without that restriction the property fails: a
bound connection that sends `create`/`join` leaves its stale reference in the
old room's slot (see the counterexample). -/
theorem slot_exclusivity_unbound_create_join (s : ServerState)
    (h : ReachableUnbound s) :
    (∀ code room sym c, s.rooms code = some room → room.players.get sym = some c →
      s.conns c = ⟨some code, some sym⟩) ∧
    (∀ code₁ code₂ sym₁ sym₂ r₁ r₂ c,
      s.rooms code₁ = some r₁ → s.rooms code₂ = some r₂ →
      r₁.players.get sym₁ = some c → r₂.players.get sym₂ = some c →
      code₁ = code₂ ∧ sym₁ = sym₂) := by
  have hinv := reachableUnbound_slotInv s h
  refine ⟨hinv, ?_⟩
  intro code₁ code₂ sym₁ sym₂ r₁ r₂ c h₁ h₂ hp₁ hp₂
  have e₁ := hinv code₁ r₁ sym₁ c h₁ hp₁
  have e₂ := hinv code₂ r₂ sym₂ c h₂ hp₂
  rw [e₁] at e₂
  exact ⟨Option.some.inj (congrArg Conn.roomCode e₂),
    Option.some.inj (congrArg Conn.symbol e₂)⟩

/-- Witness for the amended C9 after one `create` from an unbound socket. -/
theorem slot_exclusivity_unbound_create_join_witness :
    (step initState (.create 0 Sym.X "AAAA" 0)).1.conns 0 =
      ⟨some "AAAA", some Sym.X⟩ :=
  (slot_exclusivity_unbound_create_join _
      (@ReachableUnbound.step initState (.create 0 Sym.X "AAAA" 0)
        ReachableUnbound.init ⟨⟨rfl, rfl⟩, rfl⟩)).1
    "AAAA" { freshRoom "AAAA" 0 with players := ⟨some 0, none⟩ } Sym.X 0
    (by decide) rfl

/-- The JSON number 0.5: a non-integer in-range index. -/
def half : ℚ := ⟨1, 2, by decide, by decide⟩

/-- C4 (code bug, room-server half): the `move` validity check never tests
that the index is an integer, so X's move with index 1/2 is accepted — it
occupies no cell yet increments `moveCount` and toggles the turn. Eight legal
integer moves later, `moveCount` reaches 9 with cell 8 still empty and no
winning line: the handler takes the draw branch and leaves `currentPlayer`
unchanged, although that ninth accepted move produced no winner and did not
fill the ninth cell — against the claimed alternation and the spec's
precondition that an accepted index is an integer 0-8. The HTTP variant is
immune: its strict `!== null` check rejects the fractional index.
`half` is the JSON number 0.5. -/
theorem turn_alternation_fractional_bug :
    ((step stateW (.move 0 (some half) 1)).1.rooms "AAAA").map
        (fun r => (r.moveCount, r.board, r.currentPlayer)) =
      some (1, List.replicate 9 none, Sym.O) ∧
    ((List.foldl (fun st e => (step st e).1) stateW
        [Event.move 0 (some half) 1, Event.move 1 (some 2) 2,
         Event.move 0 (some 0) 3, Event.move 1 (some 3) 4,
         Event.move 0 (some 1) 5, Event.move 1 (some 4) 6,
         Event.move 0 (some 5) 7, Event.move 1 (some 7) 8,
         Event.move 0 (some 6) 9]).rooms "AAAA").map
        (fun r => (r.winner, r.isDraw, r.moveCount, cellAt r.board 8, r.currentPlayer)) =
      some (none, true, 9, none, Sym.X) ∧
    apiMove createNewGame (some half) = (createNewGame, some "Cell already taken") :=
  ⟨by decide, by decide, by decide⟩

end TicTacToe
